import Mathlib

/-!
Verification of the kubevirt-vm-feature-manager mutation pipeline.

This development shallowly embeds the Go sources of the repository:
  - pkg/utils/constants.go        (directive keys, config-source helpers)
  - pkg/userdata (parser file)    (parseDirectives and its safety bounds)
  - pkg/features/feature.go       (Feature contract, MutationResult,
                                   PciPassthrough)
  - features nested_virtualization file (NestedVirtualization)
  - pkg/config/config.go          (configuration records)
  - pkg/webhook/mutator.go        (Handle, handleError, createPatch,
                                   hasEnabledFeatures,
                                   getFeatureAnnotationKey)

Modelling conventions:
  - Go string-keyed maps become association lists (`SMap`) whose lookup
    returns the last-inserted binding for a key; `SMap.sinsert` replaces an
    existing binding exactly as a Go map assignment does, and a `nil` map is
    identified with the empty list (the Go sources only ever distinguish the
    two to lazily allocate before writing).
  - In-place mutation of the working copy (`mutatedVM`, obtained from
    `vm.DeepCopy()`) becomes functional update of the working-copy value; the
    decoded original is threaded through the pipeline unchanged, exactly as
    the Go code never passes `vm` to a mutating operation.
  - `encoding/json` marshalling, the sole failure source of
    `Mutator.createPatch`, is abstracted as `marshal`/`patchMarshal`
    parameters of the mutator model; `json.Unmarshal` of the PCI directive
    value is abstracted as a `parseSpec` parameter of `pciApply`.
  - Byte lengths (`len` in Go) are `String.utf8ByteSize`.
-/

namespace VMFM

/-! ## String maps (Go `map[string]string`) -/

/-- Association-list model of a Go `map[string]string`. -/
abbrev SMap := List (String × String)

/-- Lookup (Go `v, ok := m[k]`). -/
def SMap.sfind (m : SMap) (k : String) : Option String :=
  match m with
  | [] => none
  | (k', v) :: rest => if k' = k then some v else SMap.sfind rest k

/-- Key-presence test (Go `_, ok := m[k]`). -/
def SMap.scontains (m : SMap) (k : String) : Bool :=
  (m.sfind k).isSome

/-- Map assignment (Go `m[k] = v`): replaces any existing binding of `k`. -/
def SMap.sinsert (m : SMap) (k v : String) : SMap :=
  match m with
  | [] => [(k, v)]
  | (k', v') :: rest =>
    if k' = k then (k, v) :: rest else (k', v') :: SMap.sinsert rest k v

/-- Key deletion (Go `delete(m, k)`). -/
def SMap.serase (m : SMap) (k : String) : SMap :=
  match m with
  | [] => []
  | (k', v') :: rest =>
    if k' = k then SMap.serase rest k else (k', v') :: SMap.serase rest k

/-- Merge `src` into `dst` (Go `for k, v := range src { dst[k] = v }`). -/
def SMap.smerge (dst src : SMap) : SMap :=
  src.foldl (fun acc kv => SMap.sinsert acc kv.1 kv.2) dst

/-! ## Constants (pkg/utils/constants.go) -/

/-- Annotation key enabling nested virtualization. -/
def AnnotationNestedVirt : String := "vm-feature-manager.io/nested-virt"

/-- Annotation key for the vBIOS injection ConfigMap. -/
def AnnotationVBiosInjection : String := "vm-feature-manager.io/vbios-injection"

/-- Annotation key for PCI passthrough devices. -/
def AnnotationPciPassthrough : String := "vm-feature-manager.io/pci-passthrough"

/-- Annotation key for the GPU device plugin. -/
def AnnotationGpuDevicePlugin : String := "vm-feature-manager.io/gpu-device-plugin"

/-- Tracking key for a successful nested-virt application. -/
def AnnotationNestedVirtApplied : String := "vm-feature-manager.io/nested-virt-applied"

/-- Tracking key for a successful PCI passthrough application. -/
def AnnotationPciPassthroughApplied : String := "vm-feature-manager.io/pci-passthrough-applied"

/-- Feature name of nested virtualization. -/
def FeatureNestedVirt : String := "nested-virt"

/-- Feature name of vBIOS injection. -/
def FeatureVBiosInjection : String := "vbios-injection"

/-- Feature name of PCI passthrough. -/
def FeaturePciPassthrough : String := "pci-passthrough"

/-- Feature name of the GPU device plugin. -/
def FeatureGpuDevicePlugin : String := "gpu-device-plugin"

/-- AMD SVM CPU feature name. -/
def CPUFeatureSVM : String := "svm"

/-- Intel VMX CPU feature name. -/
def CPUFeatureVMX : String := "vmx"

/-- Error handling mode: reject failing VMs. -/
def ErrorHandlingReject : String := "reject"

/-- Error handling mode: allow failing VMs, log only. -/
def ErrorHandlingAllowAndLog : String := "allow-and-log"

/-- Error handling mode: strip the failing directive and allow. -/
def ErrorHandlingStripLabel : String := "strip-label"

/-- Go `type ConfigSource string`. -/
abbrev ConfigSource := String

/-- ConfigSource reading directives from VM annotations. -/
def ConfigSourceAnnotations : ConfigSource := "annotations"

/-- ConfigSource reading directives from VM labels. -/
def ConfigSourceLabels : ConfigSource := "labels"

/-- Go strings.ToLower, written out character by character. -/
def lowerString (s : String) : String :=
  String.mk (s.toList.map Char.toLower)

/-- Embeds utils.IsTruthyValue: case-insensitive match of
true/enabled/yes/1. -/
def IsTruthyValue (value : String) : Bool :=
  let lv := lowerString value
  lv = "true" || lv = "enabled" || lv = "yes" || lv = "1"

/-- Embeds utils.GetConfigValue: reads `key` from labels when the source is
labels, otherwise from annotations; a `nil` map yields not-found, which the
empty-list model subsumes. -/
def GetConfigValue (configSource : ConfigSource) (annotations labels : SMap)
    (key : String) : Option String :=
  let source := if configSource = ConfigSourceLabels then labels else annotations
  source.sfind key

/-! ## VM data model (the kubevirtv1.VirtualMachine fields the pipeline
touches) -/

/-- One kubevirtv1.CPUFeature entry. -/
structure CPUFeature where
  name : String
  policy : String
deriving DecidableEq, Repr

/-- CPU section of the domain (kubevirtv1.CPU, the Features field). -/
structure CPU where
  features : List CPUFeature
deriving DecidableEq, Repr

/-- One kubevirtv1.HostDevice entry. -/
structure HostDevice where
  name : String
  deviceName : String
deriving DecidableEq, Repr

/-- Devices section of the domain (the HostDevices field). -/
structure Devices where
  hostDevices : List HostDevice
deriving DecidableEq, Repr

/-- Domain section of the VMI template spec. -/
structure DomainSpec where
  cpu : Option CPU
  devices : Devices
deriving DecidableEq, Repr

/-- VMI template spec (the Domain the features mutate). -/
structure TemplateSpec where
  domain : DomainSpec
deriving DecidableEq, Repr

/-- VMI template: nested object metadata plus the spec. -/
structure Template where
  spec : TemplateSpec
deriving DecidableEq, Repr

/-- VirtualMachineSpec: the (nilable) template. -/
structure VMSpec where
  template : Option Template
deriving DecidableEq, Repr

/-- VirtualMachine: top-level metadata maps plus the spec. -/
structure VM where
  annotations : SMap
  labels : SMap
  spec : VMSpec
deriving DecidableEq, Repr

/-! ## Userdata directive extraction (pkg/userdata, parseDirectives) -/

/-- The 64 KiB cap on userdata accepted by parseDirectives. -/
def MaxUserdataBytes : Nat := 65536

/-- The 1024-byte cap on a single directive value. -/
def MaxDirectiveValueBytes : Nat := 1024

/-- RE2 whitespace class of the directive regex (Go regexp backslash-s,
i.e. space, tab, newline, form feed, carriage return). -/
def isSpaceChar (c : Char) : Bool :=
  c = ' ' || c = '\t' || c = '\n' || c = '\x0c' || c = '\r'

/-- Drop leading regex-whitespace characters. -/
def dropSpaces : List Char → List Char
  | [] => []
  | c :: rest => if isSpaceChar c then dropSpaces rest else c :: rest

/-- Character class of a directive key (regex class a-z, 0-9 and dash). -/
def isKeyChar (c : Char) : Bool :=
  ('a' ≤ c && c ≤ 'z') || ('0' ≤ c && c ≤ '9') || c = '-'

/-- Trim regex-whitespace from both ends (the net effect of the lazy value
group plus the Go strings.TrimSpace call on it). -/
def trimSpaces (cs : List Char) : List Char :=
  ((dropSpaces (dropSpaces cs).reverse)).reverse

/-- Per-line reading of the featureDirectiveRegex: optional whitespace, a
hash, optional whitespace, the literal marker, optional whitespace, a
nonempty key over the key character class, optional whitespace, an equals
sign, and a nonempty remainder whose trimmed form is the value. The Go
regex runs in multiline mode over the whole text; the (key, value) pairs it
produces, in order, are exactly the per-line matches. -/
def parseLine (line : String) : Option (String × String) :=
  match dropSpaces line.toList with
  | '#' :: cs =>
    let cs := dropSpaces cs
    let marker := "@kubevirt-feature:".toList
    if marker.isPrefixOf cs then
      let cs := cs.drop marker.length
      let cs := dropSpaces cs
      let key := cs.takeWhile isKeyChar
      let cs := cs.dropWhile isKeyChar
      if key.isEmpty then none
      else
        match dropSpaces cs with
        | '=' :: rest =>
          if rest.isEmpty then none
          else some (String.mk key, String.mk (trimSpaces rest))
        | _ => none
    else none
  | _ => none

/-- The per-match body of the parseDirectives loop: drop values longer
than 1024 bytes, otherwise store under the vm-feature-manager.io/ domain. -/
def directiveStep (acc : SMap) (line : String) : SMap :=
  match parseLine line with
  | none => acc
  | some kv =>
    if kv.2.utf8ByteSize > MaxDirectiveValueBytes then acc
    else acc.sinsert ("vm-feature-manager.io/" ++ kv.1) kv.2

/-- Split a character sequence at newlines (the line structure the
multiline regex anchors on). -/
def splitLines : List Char → List (List Char)
  | [] => [[]]
  | c :: rest =>
    if c = '\n' then [] :: splitLines rest
    else
      match splitLines rest with
      | [] => [[c]]
      | l :: ls => (c :: l) :: ls

/-- The lines of the userdata text. -/
def userdataLines (userData : String) : List String :=
  (splitLines userData.toList).map String.mk

/-- Embeds Parser.parseDirectives: returns the empty map for oversized
input, otherwise collects every directive line, skipping values longer than
1024 bytes, keyed under the vm-feature-manager.io/ domain. -/
def parseDirectives (userData : String) : SMap :=
  if userData.utf8ByteSize > MaxUserdataBytes then []
  else (userdataLines userData).foldl directiveStep []

/-! ## Configuration records (pkg/config/config.go) -/

/-- NestedVirtConfig. -/
structure NestedVirtConfig where
  enabled : Bool
  autoDetectCPU : Bool
deriving DecidableEq, Repr

/-- VBiosConfig. -/
structure VBiosConfig where
  enabled : Bool
  sidecarImage : String
  sidecarImageOverride : String
  sidecarVersion : String
  sourceConfigMapKey : String
  hookConfigMapNameTemplate : String
  vBiosPath : String
  validateSidecarTools : Bool
  requiredTools : List String
deriving DecidableEq, Repr

/-- PCIPassthroughConfig. -/
structure PCIPassthroughConfig where
  enabled : Bool
  errorHandling : String
  maxDevices : Int
deriving DecidableEq, Repr

/-- GPUDevicePluginConfig. -/
structure GPUDevicePluginConfig where
  enabled : Bool
  allowedPlugins : List String
deriving DecidableEq, Repr

/-- FeaturesConfig: the per-feature configuration blocks. -/
structure FeaturesConfig where
  nestedVirtualization : NestedVirtConfig
  vBiosInjection : VBiosConfig
  pciPassthrough : PCIPassthroughConfig
  gpuDevicePlugin : GPUDevicePluginConfig
deriving DecidableEq, Repr

/-- Config: the webhook configuration. -/
structure Config where
  port : Int
  certDir : String
  logLevel : String
  errorHandlingMode : String
  configSource : ConfigSource
  features : FeaturesConfig
  addTrackingAnnotations : Bool
  webhookVersion : String
deriving DecidableEq, Repr

/-! ## Feature contract (pkg/features/feature.go) -/

/-- MutationResult: what a feature application reports back. -/
structure MutationResult where
  applied : Bool
  annotations : SMap
  messages : List String
deriving DecidableEq, Repr

/-- NewMutationResult: empty result, not applied. -/
def NewMutationResult : MutationResult :=
  { applied := false, annotations := [], messages := [] }

/-! ## NestedVirtualization feature -/

/-- The zero value a nil VM template is initialized to. -/
def emptyTemplate : Template :=
  { spec := { domain := { cpu := none, devices := { hostDevices := [] } } } }

/-- Embeds NestedVirtualization.IsEnabled: gated on the config Enabled flag,
then a truthy directive value. -/
def nestedVirtIsEnabled (cfg : NestedVirtConfig) (configSource : ConfigSource)
    (vm : VM) : Bool :=
  if !cfg.enabled then false
  else
    match GetConfigValue configSource vm.annotations vm.labels AnnotationNestedVirt with
    | none => false
    | some value => IsTruthyValue value

/-- Embeds NestedVirtualization.detectCPUFeature (runtime.GOARCH passed
explicitly): every branch of the source returns SVM. -/
def detectCPUFeature (cfg : NestedVirtConfig) (goarch : String) : String :=
  if !cfg.autoDetectCPU then CPUFeatureSVM
  else if goarch = "amd64" || goarch = "x86_64" then CPUFeatureSVM
  else CPUFeatureSVM

/-- Embeds NestedVirtualization.Validate: an absent directive passes, a
present directive must be exactly the string enabled. -/
def nestedVirtValidate (configSource : ConfigSource) (vm : VM) : Option String :=
  match GetConfigValue configSource vm.annotations vm.labels AnnotationNestedVirt with
  | none => none
  | some value =>
    if value ≠ "enabled" then
      some ("invalid value for " ++ AnnotationNestedVirt ++ ": " ++ value ++
        " (expected \x27enabled\x27)")
    else none

/-- The spec mutation of NestedVirtualization.Apply: initialize the
template and CPU containers when nil and append the CPU feature unless an
entry of that name is already present. -/
def nestedVirtMutate (cpuFeature : String) (vm : VM) : VM :=
  let template := (vm.spec.template).getD emptyTemplate
  let cpu := (template.spec.domain.cpu).getD { features := [] }
  let cpu' := if cpu.features.any (fun e => e.name = cpuFeature) then cpu
    else { cpu with features := cpu.features ++ [{ name := cpuFeature, policy := "require" }] }
  { vm with spec :=
    { template := some { template with spec :=
      { template.spec with domain :=
        { template.spec.domain with cpu := some cpu' } } } } }

/-- Embeds NestedVirtualization.Apply: initializes template and CPU when
nil, appends the detected CPU feature unless already present, and reports
Applied true with the tracking annotation whenever the feature is enabled.
Never errors. -/
def nestedVirtApply (cfg : NestedVirtConfig) (configSource : ConfigSource)
    (goarch : String) (vm : VM) : MutationResult × VM :=
  if !nestedVirtIsEnabled cfg configSource vm then (NewMutationResult, vm)
  else
    let cpuFeature := detectCPUFeature cfg goarch
    ({ applied := true,
       annotations := SMap.sinsert [] AnnotationNestedVirtApplied "true",
       messages := ["Enabled nested virtualization with " ++ cpuFeature ++ " CPU feature"] },
     nestedVirtMutate cpuFeature vm)

/-! ## PciPassthrough feature -/

/-- The JSON payload of the PCI passthrough directive. -/
structure PCIPassthroughSpec where
  devices : List String
deriving DecidableEq, Repr

/-- PCI address to KubeVirt device name: underscores for colons and dots,
under the pci marker (Go strings.ReplaceAll twice with one-character
patterns, written as a character map). -/
def pciDeviceName (pciAddr : String) : String :=
  "pci_" ++ String.mk (pciAddr.toList.map (fun c =>
    if c = ':' then '_' else if c = '.' then '_' else c))

/-- Embeds PciPassthrough.IsEnabled: directive present and nonempty. The
rule holds no configuration; in particular it never consults
PCIPassthroughConfig.Enabled. -/
def pciIsEnabled (configSource : ConfigSource) (vm : VM) : Bool :=
  match GetConfigValue configSource vm.annotations vm.labels AnnotationPciPassthrough with
  | none => false
  | some value => value ≠ ""

/-- Comma join of a list of strings. -/
def joinComma : List String → String
  | [] => ""
  | [s] => s
  | s :: rest => s ++ "," ++ joinComma rest

/-- json.Marshal of a nonempty Go string slice, as used for the PCI
tracking annotation value. -/
def jsonStringArray (items : List String) : String :=
  "[" ++ joinComma (items.map (fun s => "\x22" ++ s ++ "\x22")) ++ "]"

/-- The loop body of PciPassthrough.Apply over the indexed requested
devices: skip a device whose name is in the precomputed existing set,
otherwise append the host device, record the address and set the applied
flag. The state is (host devices, added addresses, applied). -/
def pciStep (existingDevices : List String)
    (st : List HostDevice × List String × Bool) (ix : Nat × String) :
    List HostDevice × List String × Bool :=
  let deviceName := pciDeviceName ix.2
  if existingDevices.contains deviceName then st
  else
    (st.1 ++ [{ name := "pci-device-" ++ toString ix.1, deviceName := deviceName }],
     st.2.1 ++ [ix.2], true)

/-- Embeds PciPassthrough.Apply. json.Unmarshal of the directive value is
abstracted as parseSpec. The set of already-present host device names is
computed once before the loop, exactly as in the source; each requested
device absent from that set is appended with an index-derived name and sets
Applied. The third component is the returned Go error. -/
def pciApply (configSource : ConfigSource)
    (parseSpec : String → Except String PCIPassthroughSpec) (vm : VM) :
    MutationResult × VM × Option String :=
  match GetConfigValue configSource vm.annotations vm.labels AnnotationPciPassthrough with
  | none => (NewMutationResult, vm, none)
  | some value =>
    if value = "" then (NewMutationResult, vm, none)
    else
      match vm.spec.template with
      | none => (NewMutationResult, vm, some "VM template is nil")
      | some template =>
        match parseSpec value with
        | .error e =>
          (NewMutationResult, vm,
           some ("invalid JSON in " ++ AnnotationPciPassthrough ++ ": " ++ e))
        | .ok spec =>
          let existingDevices :=
            template.spec.domain.devices.hostDevices.map (fun hd => hd.deviceName)
          let fin := spec.devices.enum.foldl (pciStep existingDevices)
            (template.spec.domain.devices.hostDevices, ([] : List String), false)
          let vm' : VM := { vm with spec :=
            { template := some { template with spec :=
              { template.spec with domain :=
                { template.spec.domain with devices := { hostDevices := fin.1 } } } } } }
          let result := if fin.2.2 then
              { applied := true,
                annotations :=
                  SMap.sinsert [] AnnotationPciPassthroughApplied (jsonStringArray fin.2.1),
                messages := [] }
            else NewMutationResult
          (result, vm', none)

/-! ## Webhook mutator (pkg/webhook/mutator.go) -/

/-- The features.Feature interface as the pipeline consumes it. Validate
returns the Go error (if any); Apply returns the result, the possibly
mutated working copy, and the Go error (if any). -/
structure Feature where
  name : String
  isEnabled : VM → Bool
  validate : VM → Option String
  apply : VM → MutationResult × VM × Option String

/-- The JSON patch createPatch emits: one replace of /spec with the mutated
spec followed by one replace of /metadata/annotations with the mutated
annotations. -/
structure JsonPatch where
  specValue : VMSpec
  annotationsValue : SMap
deriving DecidableEq, Repr

/-- admissionv1.AdmissionResponse, restricted to the fields the mutator
sets: Allowed, Patch, Result.Message and Result.Code. -/
structure AdmissionResponse where
  allowed : Bool
  patch : Option JsonPatch
  message : Option String
  code : Option Nat
deriving DecidableEq, Repr

/-- The mutator: configuration, registered feature list, and the two
abstracted json.Marshal calls of createPatch (VM serialization and patch
serialization). -/
structure Mutator where
  config : Config
  features : List Feature
  marshal : VM → Except String Unit
  patchMarshal : JsonPatch → Except String Unit

/-- Embeds Mutator.allowResponse. -/
def allowResponse (message : String) : AdmissionResponse :=
  { allowed := true, patch := none, message := some message, code := none }

/-- Embeds Mutator.errorResponse: denied with a 400 code. -/
def errorResponse (err : String) : AdmissionResponse :=
  { allowed := false, patch := none, message := some err, code := some 400 }

/-- Embeds Mutator.createPatch: marshals the original VM, the mutated VM
and the two-operation patch; any marshal failure propagates, otherwise the
patch replaces /spec and /metadata/annotations with the mutated values. -/
def createPatch (marshal : VM → Except String Unit)
    (patchMarshal : JsonPatch → Except String Unit)
    (original mutated : VM) : Except String JsonPatch :=
  match marshal original with
  | .error e => .error ("failed to marshal original VM: " ++ e)
  | .ok _ =>
    match marshal mutated with
    | .error e => .error ("failed to marshal mutated VM: " ++ e)
    | .ok _ =>
      let patch : JsonPatch :=
        { specValue := mutated.spec, annotationsValue := mutated.annotations }
      match patchMarshal patch with
      | .error e => .error ("failed to marshal patch: " ++ e)
      | .ok _ => .ok patch

/-- Embeds Mutator.getFeatureAnnotationKey: static feature-name to
directive-key table, empty string for unknown names. -/
def getFeatureAnnotationKey (featureName : String) : String :=
  if featureName = FeatureNestedVirt then AnnotationNestedVirt
  else if featureName = FeatureGpuDevicePlugin then AnnotationGpuDevicePlugin
  else if featureName = FeaturePciPassthrough then AnnotationPciPassthrough
  else if featureName = FeatureVBiosInjection then AnnotationVBiosInjection
  else ""

/-- The strip-label deletion step of handleError: remove the failing
feature directive key from the working copy metadata (no-op for an unknown
feature name). -/
def stripDirectiveKey (mutatedVM : VM) (featureName : String) : VM :=
  let annotationKey := getFeatureAnnotationKey featureName
  if annotationKey = "" then mutatedVM
  else { mutatedVM with annotations := mutatedVM.annotations.serase annotationKey }

/-- Embeds Mutator.handleError: the three-mode failure policy, with the
unknown-mode fallback to a plain denial. Returns the response together with
the original and working-copy VM values as they stand afterwards (the
source mutates only the working copy, in the strip branch). -/
def handleError (m : Mutator) (featureName err : String)
    (originalVM mutatedVM : VM) : AdmissionResponse × VM × VM :=
  if m.config.errorHandlingMode = ErrorHandlingReject then
    (errorResponse ("feature " ++ featureName ++ " failed: " ++ err),
     originalVM, mutatedVM)
  else if m.config.errorHandlingMode = ErrorHandlingAllowAndLog then
    (allowResponse ("Feature " ++ featureName ++ " failed but admission allowed: " ++ err),
     originalVM, mutatedVM)
  else if m.config.errorHandlingMode = ErrorHandlingStripLabel then
    let stripped := stripDirectiveKey mutatedVM featureName
    match createPatch m.marshal m.patchMarshal originalVM stripped with
    | .error patchErr =>
      (allowResponse ("Feature " ++ featureName ++ " failed, annotation strip failed: " ++ patchErr),
       originalVM, stripped)
    | .ok patch =>
      ({ allowed := true, patch := some patch,
         message := some ("Feature " ++ featureName ++ " failed, annotation " ++
           getFeatureAnnotationKey featureName ++ " stripped and admission allowed"),
         code := none },
       originalVM, stripped)
  else
    (errorResponse err, originalVM, mutatedVM)

/-- Embeds Mutator.hasEnabledFeatures. -/
def hasEnabledFeatures (featureList : List Feature) (vm : VM) : Bool :=
  featureList.any (fun f => f.isEnabled vm)

/-- The userdata merge loop of Handle: each extracted directive is copied
into the working-copy annotations only when the key is not already
present. -/
def mergeUserdata (annotations : SMap) (userdataFeatures : SMap) : SMap :=
  userdataFeatures.foldl (fun acc kv =>
    if acc.scontains kv.1 then acc else acc.sinsert kv.1 kv.2) annotations

/-- The working copy right after DeepCopy plus the userdata merge. -/
def mergedVM (vm : VM) (userdataFeatures : SMap) : VM :=
  { vm with annotations := mergeUserdata vm.annotations userdataFeatures }

/-- The feature loop of Handle: skips disabled features, stops at the first
Validate or Apply error (inl carries the failing feature name, the error
and the working copy at that point), otherwise accumulates applied feature
names and tracking annotations (inr). -/
def applyLoop : List Feature → VM → List String → SMap →
    (String × String × VM) ⊕ (VM × List String × SMap)
  | [], mutatedVM, appliedFeatures, allAnnotations =>
    .inr (mutatedVM, appliedFeatures, allAnnotations)
  | f :: rest, mutatedVM, appliedFeatures, allAnnotations =>
    if !f.isEnabled mutatedVM then
      applyLoop rest mutatedVM appliedFeatures allAnnotations
    else
      match f.validate mutatedVM with
      | some e => .inl (f.name, e, mutatedVM)
      | none =>
        match f.apply mutatedVM with
        | (_, mutatedVM', some e) => .inl (f.name, e, mutatedVM')
        | (result, mutatedVM', none) =>
          if result.applied then
            applyLoop rest mutatedVM' (appliedFeatures ++ [f.name])
              (allAnnotations.smerge result.annotations)
          else
            applyLoop rest mutatedVM' appliedFeatures allAnnotations

/-- The tracking-annotation step of Handle: when enabled by configuration
and at least one feature applied, merge the aggregate tracking map into the
working-copy annotations. -/
def trackedVM (m : Mutator) (mutatedVM : VM) (appliedFeatures : List String)
    (allAnnotations : SMap) : VM :=
  if m.config.addTrackingAnnotations && !appliedFeatures.isEmpty then
    { mutatedVM with annotations := mutatedVM.annotations.smerge allAnnotations }
  else mutatedVM

/-- The tail of Handle: build the patch from (original, mutated) and answer
allowed-with-patch, or deny on a patch creation failure. -/
def buildFinalResponse (m : Mutator) (vm mutatedVM : VM) : AdmissionResponse :=
  match createPatch m.marshal m.patchMarshal vm mutatedVM with
  | .error e => errorResponse e
  | .ok patch => { allowed := true, patch := some patch, message := none, code := none }

/-- The userdata extraction result as Handle consumes it: a parse failure
degrades to no contribution. -/
def userdataMap (udResult : Except String SMap) : SMap :=
  match udResult with
  | .error _ => []
  | .ok m => m

/-- Embeds Mutator.Handle. Decoding of the raw request object and userdata
extraction are passed in as their results. Returns the admission response
together with the final (original, working copy) pair when decoding
succeeded. -/
def Handle (m : Mutator) (udResult : Except String SMap)
    (raw : Except String VM) : AdmissionResponse × Option (VM × VM) :=
  match raw with
  | .error e => (errorResponse e, none)
  | .ok vm =>
    let userdataFeatures := userdataMap udResult
    let mutatedVM := mergedVM vm userdataFeatures
    if !hasEnabledFeatures m.features mutatedVM then
      (allowResponse "No features requested", some (vm, mutatedVM))
    else
      match applyLoop m.features mutatedVM [] [] with
      | .inl (featureName, err, mutatedVM') =>
        let r := handleError m featureName err vm mutatedVM'
        (r.1, some (r.2.1, r.2.2))
      | .inr (mutatedVM', appliedFeatures, allAnnotations) =>
        let finalVM := trackedVM m mutatedVM' appliedFeatures allAnnotations
        (buildFinalResponse m vm finalVM, some (vm, finalVM))

/-! ## Map lemmas -/

/-- Lookup after inserting the same key. -/
theorem SMap.sfind_sinsert_self (m : SMap) (k v : String) :
    (m.sinsert k v).sfind k = some v := by
  induction m with
  | nil => simp [SMap.sinsert, SMap.sfind]
  | cons hd tl ih =>
    obtain ⟨a, b⟩ := hd
    by_cases ha : a = k <;> simp [SMap.sinsert, SMap.sfind, ha, ih]

/-- Lookup after inserting a different key. -/
theorem SMap.sfind_sinsert_ne (m : SMap) (k k' v : String) (h : k' ≠ k) :
    (m.sinsert k v).sfind k' = m.sfind k' := by
  have h' : ¬(k = k') := fun hh => h hh.symm
  induction m with
  | nil => simp [SMap.sinsert, SMap.sfind, h']
  | cons hd tl ih =>
    obtain ⟨a, b⟩ := hd
    by_cases ha : a = k
    · simp [SMap.sinsert, SMap.sfind, ha, h']
    · simp [SMap.sinsert, SMap.sfind, ha, ih]

/-- Lookup of an erased key. -/
theorem SMap.sfind_serase_self (m : SMap) (k : String) :
    (m.serase k).sfind k = none := by
  induction m with
  | nil => simp [SMap.serase, SMap.sfind]
  | cons hd tl ih =>
    obtain ⟨a, b⟩ := hd
    by_cases ha : a = k <;> simp [SMap.serase, SMap.sfind, ha, ih]

/-- Lookup of a key different from the erased one. -/
theorem SMap.sfind_serase_ne (m : SMap) (k k' : String) (h : k' ≠ k) :
    (m.serase k).sfind k' = m.sfind k' := by
  have h' : ¬(k = k') := fun hh => h hh.symm
  induction m with
  | nil => simp [SMap.serase, SMap.sfind]
  | cons hd tl ih =>
    obtain ⟨a, b⟩ := hd
    by_cases ha : a = k
    · simp [SMap.serase, SMap.sfind, ha, h', ih]
    · simp [SMap.serase, SMap.sfind, ha, ih]

/-- The userdata merge leaves every already-present binding untouched. -/
theorem mergeUserdata_primary_wins (ann ud : SMap) (k v : String)
    (h : ann.sfind k = some v) : (mergeUserdata ann ud).sfind k = some v := by
  induction ud generalizing ann with
  | nil => simpa [mergeUserdata] using h
  | cons hd tl ih =>
    obtain ⟨a, b⟩ := hd
    have hstep : mergeUserdata ann ((a, b) :: tl) =
        mergeUserdata (if ann.scontains a then ann else ann.sinsert a b) tl := by
      simp [mergeUserdata]
    rw [hstep]
    by_cases hc : ann.scontains a
    · simpa [hc] using ih ann h
    · by_cases hk : a = k
      · exfalso
        subst hk
        simp [SMap.scontains, h] at hc
      · have hfind : (ann.sinsert a b).sfind k = some v := by
          rw [SMap.sfind_sinsert_ne ann a k b (Ne.symm hk)]
          exact h
        simpa [hc] using ih (ann.sinsert a b) hfind

/-- Presence after inserting the same key. -/
theorem SMap.scontains_sinsert_self (m : SMap) (k v : String) :
    (m.sinsert k v).scontains k = true := by
  simp [SMap.scontains, SMap.sfind_sinsert_self]

/-- Insertion preserves presence of any key. -/
theorem SMap.scontains_sinsert_of (m : SMap) (a b k : String)
    (h : m.scontains k = true) : (m.sinsert a b).scontains k = true := by
  by_cases hk : k = a
  · subst hk
    exact SMap.scontains_sinsert_self m k b
  · simp only [SMap.scontains] at h ⊢
    rw [SMap.sfind_sinsert_ne m a k b hk]
    exact h

/-- A successful lookup after insertion stems from the inserted pair or
from the underlying map. -/
theorem SMap.sfind_sinsert_cases (m : SMap) (k k' v w : String)
    (h : (m.sinsert k v).sfind k' = some w) :
    (k' = k ∧ w = v) ∨ m.sfind k' = some w := by
  by_cases hk : k' = k
  · subst hk
    rw [SMap.sfind_sinsert_self] at h
    exact Or.inl ⟨rfl, (Option.some.inj h).symm⟩
  · rw [SMap.sfind_sinsert_ne m k k' v hk] at h
    exact Or.inr h

/-- Every value stored by the directive fold respects the per-value byte
bound, provided the initial accumulator does. -/
theorem directiveFold_values_bounded (lines : List String) :
    ∀ acc : SMap,
      (∀ k v, acc.sfind k = some v → v.utf8ByteSize ≤ MaxDirectiveValueBytes) →
      ∀ k v, (lines.foldl directiveStep acc).sfind k = some v →
        v.utf8ByteSize ≤ MaxDirectiveValueBytes := by
  induction lines with
  | nil => intro acc hacc k v h; exact hacc k v h
  | cons l rest ih =>
    intro acc hacc k v h
    refine ih (directiveStep acc l) ?_ k v (by simpa using h)
    intro k' v' h'
    cases hp : parseLine l with
    | none =>
      simp only [directiveStep, hp] at h'
      exact hacc _ _ h'
    | some kv =>
      simp only [directiveStep, hp] at h'
      by_cases hb : kv.2.utf8ByteSize > MaxDirectiveValueBytes
      · rw [if_pos hb] at h'
        exact hacc _ _ h'
      · rw [if_neg hb] at h'
        rcases SMap.sfind_sinsert_cases _ _ _ _ _ h' with ⟨_, hv⟩ | hold
        · subst hv
          omega
        · exact hacc _ _ hold

/-- The directive fold never loses a key already present. -/
theorem directiveFold_preserves_contains (lines : List String) :
    ∀ (acc : SMap) (k : String), acc.scontains k = true →
      (lines.foldl directiveStep acc).scontains k = true := by
  induction lines with
  | nil => intro acc k h; exact h
  | cons l rest ih =>
    intro acc k h
    simp only [List.foldl_cons]
    refine ih (directiveStep acc l) k ?_
    cases hp : parseLine l with
    | none => simpa only [directiveStep, hp] using h
    | some kv =>
      simp only [directiveStep, hp]
      by_cases hb : kv.2.utf8ByteSize > MaxDirectiveValueBytes
      · rw [if_pos hb]; exact h
      · rw [if_neg hb]
        exact SMap.scontains_sinsert_of _ _ _ _ h

/-- A directive line whose value fits the bound ends up in the fold
result. -/
theorem directiveFold_contains_of_mem (lines : List String) :
    ∀ (acc : SMap) (line k v : String), line ∈ lines →
      parseLine line = some (k, v) →
      v.utf8ByteSize ≤ MaxDirectiveValueBytes →
      (lines.foldl directiveStep acc).scontains ("vm-feature-manager.io/" ++ k) = true := by
  induction lines with
  | nil => intro _ _ _ _ hmem; cases hmem
  | cons l rest ih =>
    intro acc line k v hmem hp hb
    rcases List.mem_cons.mp hmem with hl | hl
    · subst hl
      simp only [List.foldl_cons]
      refine directiveFold_preserves_contains rest (directiveStep acc line) _ ?_
      simp only [directiveStep, hp]
      rw [if_neg (by omega)]
      exact SMap.scontains_sinsert_self _ _ _
    · simp only [List.foldl_cons]
      exact ih (directiveStep acc l) line k v hl hp hb

/-! ## Claim theorems -/

/-- Claim C1: for every directive key present both in the primary metadata
(annotations) and in the userdata-extracted secondary directives, the
merged directive view Handle works on keeps the primary value, for all
keys and values; the secondary value is discarded. -/
theorem C1_primary_metadata_wins (vm : VM) (userdataFeatures : SMap)
    (k v : String) (h : vm.annotations.sfind k = some v) :
    (mergedVM vm userdataFeatures).annotations.sfind k = some v := by
  simpa [mergedVM] using
    mergeUserdata_primary_wins vm.annotations userdataFeatures k v h

/-- Concrete VM for the C1 witness: the nested-virt annotation present. -/
def vmC1 : VM :=
  { annotations := [(AnnotationNestedVirt, "enabled")], labels := [],
    spec := { template := none } }

/-- Concrete conflicting userdata directives for the C1 witness. -/
def udC1 : SMap := [(AnnotationNestedVirt, "disabled")]

/-- Witness for C1 at a concrete VM and conflicting userdata value. -/
theorem C1_primary_metadata_wins_witness :
    vmC1.annotations.sfind AnnotationNestedVirt = some "enabled" ∧
    (mergedVM vmC1 udC1).annotations.sfind AnnotationNestedVirt = some "enabled" :=
  ⟨by decide, C1_primary_metadata_wins vmC1 udC1 AnnotationNestedVirt "enabled" (by decide)⟩

/-- Claim C9: the userdata directive parser enforces its safety bounds
without erroring: input longer than 65536 bytes yields the empty map;
every stored value fits in 1024 bytes; and a matched directive with a
small enough value is kept. -/
theorem C9_parse_safety_bounds :
    (∀ userData : String, userData.utf8ByteSize > MaxUserdataBytes →
      parseDirectives userData = []) ∧
    (∀ (userData : String) (k v : String),
      (parseDirectives userData).sfind k = some v →
      v.utf8ByteSize ≤ MaxDirectiveValueBytes) ∧
    (∀ (userData line k v : String),
      userData.utf8ByteSize ≤ MaxUserdataBytes →
      line ∈ userdataLines userData → parseLine line = some (k, v) →
      v.utf8ByteSize ≤ MaxDirectiveValueBytes →
      (parseDirectives userData).scontains ("vm-feature-manager.io/" ++ k) = true) := by
  refine ⟨?_, ?_, ?_⟩
  · intro userData h
    simp [parseDirectives, h]
  · intro userData k v h
    unfold parseDirectives at h
    by_cases hs : userData.utf8ByteSize > MaxUserdataBytes
    · rw [if_pos hs] at h
      simp [SMap.sfind] at h
    · rw [if_neg hs] at h
      refine directiveFold_values_bounded _ [] ?_ k v h
      intro k' v' h'
      simp [SMap.sfind] at h'
  · intro userData line k v hs hmem hp hb
    unfold parseDirectives
    rw [if_neg (by omega)]
    exact directiveFold_contains_of_mem _ [] line k v hmem hp hb

/-- Byte size of a replicated ASCII letter. -/
theorem utf8Len_replicate_a (n : Nat) :
    String.utf8Len (List.replicate n 'a') = n := by
  induction n with
  | zero => simp
  | succ n ih =>
    have : Char.utf8Size 'a' = 1 := by decide
    simp [List.replicate_succ, String.utf8Len_cons, ih, this]

/-- A 65537-byte userdata blob for the C9 witness. -/
def bigC9 : String := String.mk (List.replicate 65537 'a')

/-- A single-directive userdata text for the C9 witness. -/
def udTextC9 : String := "# @kubevirt-feature: nested-virt=enabled"

/-- Witness for C9: the oversized blob parses to nothing, the stored value
obeys the bound, and the small directive is kept. -/
theorem C9_parse_safety_bounds_witness :
    parseDirectives bigC9 = [] ∧
    ("enabled" : String).utf8ByteSize ≤ MaxDirectiveValueBytes ∧
    (parseDirectives udTextC9).scontains ("vm-feature-manager.io/" ++ "nested-virt") = true := by
  have hbig : bigC9.utf8ByteSize > MaxUserdataBytes := by
    show (String.mk (List.replicate 65537 'a')).utf8ByteSize > MaxUserdataBytes
    rw [String.utf8ByteSize_mk, utf8Len_replicate_a]
    simp [MaxUserdataBytes]
  refine ⟨C9_parse_safety_bounds.1 bigC9 hbig, ?_, ?_⟩
  · exact C9_parse_safety_bounds.2.1 udTextC9 ("vm-feature-manager.io/" ++ "nested-virt")
      "enabled" (by decide)
  · exact C9_parse_safety_bounds.2.2 udTextC9 udTextC9 "nested-virt" "enabled"
      (by decide) (by decide) (by decide) (by decide)

/-! ## Idempotence facts about the concrete features -/

/-- nestedVirtMutate never touches the metadata maps. -/
theorem nestedVirtMutate_meta (cpuFeature : String) (vm : VM) :
    (nestedVirtMutate cpuFeature vm).annotations = vm.annotations ∧
    (nestedVirtMutate cpuFeature vm).labels = vm.labels := by
  simp [nestedVirtMutate]

/-- Mutating twice with the same CPU feature equals mutating once. -/
theorem nestedVirtMutate_idem (cpuFeature : String) (vm : VM) :
    nestedVirtMutate cpuFeature (nestedVirtMutate cpuFeature vm) =
      nestedVirtMutate cpuFeature vm := by
  unfold nestedVirtMutate
  by_cases hf : (((vm.spec.template).getD emptyTemplate).spec.domain.cpu.getD
      { features := [] }).features.any (fun e => e.name = cpuFeature) <;>
    simp [hf, List.any_append]

/-- nestedVirtIsEnabled only reads the metadata maps. -/
theorem nestedVirtIsEnabled_congr (cfg : NestedVirtConfig)
    (configSource : ConfigSource) (vm vm' : VM)
    (ha : vm'.annotations = vm.annotations) (hl : vm'.labels = vm.labels) :
    nestedVirtIsEnabled cfg configSource vm' = nestedVirtIsEnabled cfg configSource vm := by
  unfold nestedVirtIsEnabled
  rw [ha, hl]

/-- The second component of an enumFrom member is a list member. -/
theorem snd_mem_of_mem_enumFrom {α : Type} {l : List α} {n : Nat} {d : Nat × α}
    (h : d ∈ l.enumFrom n) : d.2 ∈ l := by
  induction l generalizing n with
  | nil => cases h
  | cons a t ih =>
    rcases List.mem_cons.mp h with hd | hd
    · subst hd
      exact List.mem_cons_self a t
    · exact List.mem_cons_of_mem a (ih hd)

/-- The second component of an enum member is a list member. -/
theorem snd_mem_of_mem_enum {α : Type} {l : List α} {d : Nat × α}
    (h : d ∈ l.enum) : d.2 ∈ l :=
  snd_mem_of_mem_enumFrom h

/-- A fold of pciStep over devices that all already exist is the
identity. -/
theorem pciStep_fold_skip (existingDevices : List String)
    (devices : List (Nat × String))
    (h : ∀ d ∈ devices, existingDevices.contains (pciDeviceName d.2) = true) :
    ∀ st, devices.foldl (pciStep existingDevices) st = st := by
  induction devices with
  | nil => intro st; rfl
  | cons d rest ih =>
    intro st
    have hd := h d (List.mem_cons_self d rest)
    have hrest : ∀ d' ∈ rest, existingDevices.contains (pciDeviceName d'.2) = true :=
      fun d' hm => h d' (List.mem_cons_of_mem d hm)
    simp only [List.foldl_cons, pciStep, hd, if_true]
    exact ih hrest st

/-- Claim C2 fails as stated: nested virtualization reports Applied true
even on a second application to a VM already carrying the CPU feature.
Concretely, applying twice from a bare enabled VM, the second call returns
Applied = true (the source sets Applied unconditionally after the
duplicate check; its own test expects true in this situation). -/
theorem C2_counterexample :
    (nestedVirtApply { enabled := true, autoDetectCPU := true }
      ConfigSourceAnnotations "amd64"
      ((nestedVirtApply { enabled := true, autoDetectCPU := true }
        ConfigSourceAnnotations "amd64"
        { annotations := [(AnnotationNestedVirt, "enabled")], labels := [],
          spec := { template := none } }).2)).1.applied = true := by
  decide

/-- Claim C2 (amended): a second application with the same directive value
adds no duplicate mutation: nested virtualization leaves the VM exactly as
after the first application but still reports Applied = true, while PCI
passthrough leaves the VM unchanged and reports Applied = false when every
requested device is already present. -/
theorem C2_amended_idempotence :
    (∀ (cfg : NestedVirtConfig) (configSource : ConfigSource) (goarch : String) (vm : VM),
      nestedVirtIsEnabled cfg configSource vm = true →
      (nestedVirtApply cfg configSource goarch
          ((nestedVirtApply cfg configSource goarch vm).2)).2 =
        (nestedVirtApply cfg configSource goarch vm).2 ∧
      (nestedVirtApply cfg configSource goarch
          ((nestedVirtApply cfg configSource goarch vm).2)).1.applied = true) ∧
    (∀ (configSource : ConfigSource)
      (parseSpec : String → Except String PCIPassthroughSpec)
      (vm : VM) (value : String) (spec : PCIPassthroughSpec) (template : Template),
      GetConfigValue configSource vm.annotations vm.labels AnnotationPciPassthrough =
        some value →
      value ≠ "" → vm.spec.template = some template → parseSpec value = .ok spec →
      (∀ d ∈ spec.devices,
        (template.spec.domain.devices.hostDevices.map (fun hd => hd.deviceName)).contains
          (pciDeviceName d) = true) →
      pciApply configSource parseSpec vm = (NewMutationResult, vm, none)) := by
  constructor
  · intro cfg configSource goarch vm h
    have hvm1 : (nestedVirtApply cfg configSource goarch vm).2 =
        nestedVirtMutate (detectCPUFeature cfg goarch) vm := by
      simp [nestedVirtApply, h]
    have h1 : nestedVirtIsEnabled cfg configSource
        (nestedVirtMutate (detectCPUFeature cfg goarch) vm) = true := by
      rw [nestedVirtIsEnabled_congr cfg configSource vm _
        (nestedVirtMutate_meta _ vm).1 (nestedVirtMutate_meta _ vm).2]
      exact h
    rw [hvm1]
    constructor
    · simp only [nestedVirtApply, h1, Bool.not_true, Bool.false_eq_true, if_false]
      exact nestedVirtMutate_idem _ vm
    · simp [nestedVirtApply, h1]
  · intro configSource parseSpec vm value spec template hval hne htmpl hparse hall
    obtain ⟨ann, lab, vmspec⟩ := vm
    obtain ⟨tmpl⟩ := vmspec
    dsimp only at htmpl hval
    subst htmpl
    have hfold : spec.devices.enum.foldl
        (pciStep (template.spec.domain.devices.hostDevices.map (fun hd => hd.deviceName)))
        (template.spec.domain.devices.hostDevices, ([] : List String), false) =
        (template.spec.domain.devices.hostDevices, ([] : List String), false) :=
      pciStep_fold_skip _ _ (fun d hd => hall d.2 (snd_mem_of_mem_enum hd)) _
    simp only [pciApply, hval, if_neg hne, hparse, hfold]
    rfl

/-- A bare enabled VM for the C2 witness. -/
def vmNV : VM :=
  { annotations := [(AnnotationNestedVirt, "enabled")], labels := [],
    spec := { template := none } }

/-- The host device entry already present in the C2 witness template. -/
def hdC2 : HostDevice :=
  { name := "pci-device-0", deviceName := "pci_0000_00_02_0" }

/-- A template already holding the requested PCI host device, for the C2
witness. -/
def tplC2 : Template :=
  { spec := { domain := { cpu := none, devices := { hostDevices := [hdC2] } } } }

/-- A VM already carrying the PCI passthrough effect, for the C2 witness. -/
def vmPciFull : VM :=
  { annotations := [(AnnotationPciPassthrough, "devspec")], labels := [],
    spec := { template := some tplC2 } }

/-- Concrete stand-in for json.Unmarshal of the PCI directive value in the
C2 witness. -/
def parseSpecC2 : String → Except String PCIPassthroughSpec :=
  fun _ => .ok { devices := ["0000:00:02.0"] }

/-- Witness for the amended C2 at concrete VMs already carrying each
effect. -/
theorem C2_amended_idempotence_witness :
    ((nestedVirtApply { enabled := true, autoDetectCPU := true }
        ConfigSourceAnnotations "amd64"
        ((nestedVirtApply { enabled := true, autoDetectCPU := true }
          ConfigSourceAnnotations "amd64" vmNV).2)).2 =
      (nestedVirtApply { enabled := true, autoDetectCPU := true }
        ConfigSourceAnnotations "amd64" vmNV).2) ∧
    pciApply ConfigSourceAnnotations parseSpecC2 vmPciFull =
      (NewMutationResult, vmPciFull, none) := by
  constructor
  · exact (C2_amended_idempotence.1 { enabled := true, autoDetectCPU := true }
      ConfigSourceAnnotations "amd64" vmNV (by decide)).1
  · exact C2_amended_idempotence.2 ConfigSourceAnnotations parseSpecC2 vmPciFull
      "devspec" { devices := ["0000:00:02.0"] } tplC2 (by decide) (by decide) rfl rfl
      (by decide)

/-- A disabled vBIOS configuration block, for the C5 counterexample. -/
def vbiosDisabled : VBiosConfig :=
  { enabled := false, sidecarImage := "", sidecarImageOverride := "",
    sidecarVersion := "", sourceConfigMapKey := "",
    hookConfigMapNameTemplate := "", vBiosPath := "",
    validateSidecarTools := false, requiredTools := [] }

/-- A features configuration with every Enabled flag false, for the C5
counterexample. -/
def fcAllDisabled : FeaturesConfig :=
  { nestedVirtualization := { enabled := false, autoDetectCPU := true },
    vBiosInjection := vbiosDisabled,
    pciPassthrough := { enabled := false, errorHandling := "reject", maxDevices := 8 },
    gpuDevicePlugin := { enabled := false, allowedPlugins := [] } }

/-- A VM requesting PCI passthrough, for the C5 counterexample. -/
def vmPciReq : VM :=
  { annotations := [(AnnotationPciPassthrough, "devspec")], labels := [],
    spec := { template := none } }

/-- Claim C5 is false as stated: the PCI passthrough rule ignores its
configuration Enabled flag, so with that flag false and the directive
present, IsEnabled still returns true. -/
theorem C5_counterexample :
    ¬ (∀ (fc : FeaturesConfig) (configSource : ConfigSource) (vm : VM),
        fc.pciPassthrough.enabled = false →
        pciIsEnabled configSource vm = false) := by
  intro h
  have h1 := h fcAllDisabled ConfigSourceAnnotations vmPciReq rfl
  have h2 : pciIsEnabled ConfigSourceAnnotations vmPciReq = true := by decide
  rw [h1] at h2
  exact Bool.false_ne_true h2

/-- Claim C5 (amended): of the feature rules only NestedVirtualization
consults a rule-level Enabled flag; for it, a false flag forces IsEnabled
to false on every VM regardless of directives. -/
theorem C5_amended_disabled_rule (cfg : NestedVirtConfig)
    (configSource : ConfigSource) (vm : VM) (h : cfg.enabled = false) :
    nestedVirtIsEnabled cfg configSource vm = false := by
  simp [nestedVirtIsEnabled, h]

/-- Witness for the amended C5: the globally disabled nested-virt rule is
off even on a VM carrying its directive. -/
theorem C5_amended_disabled_rule_witness :
    ({ enabled := false, autoDetectCPU := true } : NestedVirtConfig).enabled = false ∧
    nestedVirtIsEnabled { enabled := false, autoDetectCPU := true }
      ConfigSourceAnnotations vmNV = false :=
  ⟨rfl, C5_amended_disabled_rule { enabled := false, autoDetectCPU := true }
    ConfigSourceAnnotations vmNV rfl⟩

/-- Claim C10: a truthy nested-virt directive value other than exactly
enabled makes IsEnabled true while Validate errors, with the rule globally
enabled; such a VM always reaches the failure policy. -/
theorem C10_truthy_but_invalid (cfg : NestedVirtConfig)
    (configSource : ConfigSource) (vm : VM) (value : String)
    (hcfg : cfg.enabled = true)
    (hval : GetConfigValue configSource vm.annotations vm.labels AnnotationNestedVirt =
      some value)
    (htruthy : IsTruthyValue value = true)
    (hne : value ≠ "enabled") :
    nestedVirtIsEnabled cfg configSource vm = true ∧
    (nestedVirtValidate configSource vm).isSome = true := by
  constructor
  · simp [nestedVirtIsEnabled, hcfg, hval, htruthy]
  · simp [nestedVirtValidate, hval, hne]

/-- A VM whose nested-virt directive value is true, for the C10 witness. -/
def vmC10 : VM :=
  { annotations := [(AnnotationNestedVirt, "true")], labels := [],
    spec := { template := none } }

/-- Witness for C10 at the value true. -/
theorem C10_truthy_but_invalid_witness :
    GetConfigValue ConfigSourceAnnotations vmC10.annotations vmC10.labels
      AnnotationNestedVirt = some "true" ∧
    IsTruthyValue "true" = true ∧
    ("true" : String) ≠ "enabled" ∧
    nestedVirtIsEnabled { enabled := true, autoDetectCPU := true }
      ConfigSourceAnnotations vmC10 = true ∧
    (nestedVirtValidate ConfigSourceAnnotations vmC10).isSome = true := by
  have h := C10_truthy_but_invalid { enabled := true, autoDetectCPU := true }
    ConfigSourceAnnotations vmC10 "true" rfl (by decide) (by decide) (by decide)
  exact ⟨by decide, by decide, by decide, h.1, h.2⟩

/-! ## Pipeline lemmas -/

/-- A successful createPatch always carries the canonical two-operation
patch over the mutated VM. -/
theorem createPatch_ok_shape (marshal : VM → Except String Unit)
    (patchMarshal : JsonPatch → Except String Unit) (original mutated : VM)
    (p : JsonPatch)
    (h : createPatch marshal patchMarshal original mutated = .ok p) :
    p = { specValue := mutated.spec, annotationsValue := mutated.annotations } := by
  unfold createPatch at h
  cases h1 : marshal original <;> rw [h1] at h <;> dsimp only at h
  · exact absurd h (by simp)
  · cases h2 : marshal mutated <;> rw [h2] at h <;> dsimp only at h
    · exact absurd h (by simp)
    · cases h3 : patchMarshal
          { specValue := mutated.spec, annotationsValue := mutated.annotations } <;>
        rw [h3] at h <;> dsimp only at h
      · exact absurd h (by simp)
      · exact (Except.ok.inj h).symm

/-- handleError never touches the original VM. -/
theorem handleError_keeps_original (m : Mutator) (featureName err : String)
    (originalVM mutatedVM : VM) :
    (handleError m featureName err originalVM mutatedVM).2.1 = originalVM := by
  unfold handleError
  by_cases h1 : m.config.errorHandlingMode = ErrorHandlingReject
  · simp [h1]
  · by_cases h2 : m.config.errorHandlingMode = ErrorHandlingAllowAndLog
    · simp [h1, h2, ErrorHandlingAllowAndLog, ErrorHandlingReject]
    · by_cases h3 : m.config.errorHandlingMode = ErrorHandlingStripLabel
      · rw [if_neg h1, if_neg h2, if_pos h3]
        dsimp only
        cases hcp : createPatch m.marshal m.patchMarshal originalVM
            (stripDirectiveKey mutatedVM featureName) <;> simp [hcp]
      · simp [h1, h2, h3]

/-- Replacing validate and apply of every feature does not change which
features are enabled. -/
theorem hasEnabledFeatures_map_validate_apply (featureList : List Feature)
    (vm : VM) (validateB : VM → Option String)
    (applyB : VM → MutationResult × VM × Option String) :
    hasEnabledFeatures (featureList.map
      (fun f => { f with validate := validateB, apply := applyB })) vm =
      hasEnabledFeatures featureList vm := by
  simp only [hasEnabledFeatures, List.any_map]
  rfl

/-! ## Remaining claim theorems -/

/-- Claim C3: in strip-label mode, when an earlier rule succeeded and rule
B then fails, the response is Allowed with a patch whose spec replacement
still carries the earlier body mutations, and whose annotations
replacement differs from the working copy exactly by the removal of B's
directive key. -/
theorem C3_strip_mode_preservation (m : Mutator) (featureNameB err : String)
    (originalVM mutatedVM : VM) (keyB : String) (p : JsonPatch)
    (hmode : m.config.errorHandlingMode = ErrorHandlingStripLabel)
    (hkey : getFeatureAnnotationKey featureNameB = keyB)
    (hkeyne : keyB ≠ "")
    (hpatch : createPatch m.marshal m.patchMarshal originalVM
      (stripDirectiveKey mutatedVM featureNameB) = .ok p) :
    (handleError m featureNameB err originalVM mutatedVM).1.allowed = true ∧
    (handleError m featureNameB err originalVM mutatedVM).1.patch = some p ∧
    p.specValue = mutatedVM.spec ∧
    p.annotationsValue.sfind keyB = none ∧
    (∀ k, k ≠ keyB →
      p.annotationsValue.sfind k = mutatedVM.annotations.sfind k) := by
  have hp := createPatch_ok_shape _ _ _ _ _ hpatch
  have hstrip : stripDirectiveKey mutatedVM featureNameB =
      { mutatedVM with annotations := mutatedVM.annotations.serase keyB } := by
    simp [stripDirectiveKey, hkey, hkeyne]
  rw [hstrip] at hp
  refine ⟨?_, ?_, ?_, ?_, ?_⟩
  · simp [handleError, hmode, ErrorHandlingStripLabel, ErrorHandlingReject,
      ErrorHandlingAllowAndLog, hpatch]
  · simp [handleError, hmode, ErrorHandlingStripLabel, ErrorHandlingReject,
      ErrorHandlingAllowAndLog, hpatch]
  · rw [hp]
  · rw [hp]
    exact SMap.sfind_serase_self mutatedVM.annotations keyB
  · intro k hk
    rw [hp]
    exact SMap.sfind_serase_ne mutatedVM.annotations keyB k hk

/-- A features configuration block used by the concrete mutators below. -/
def fcPlain : FeaturesConfig := fcAllDisabled

/-- A concrete webhook configuration with the given error handling mode. -/
def mkConfig (mode : String) : Config :=
  { port := 8443, certDir := "", logLevel := "info", errorHandlingMode := mode,
    configSource := ConfigSourceAnnotations, features := fcPlain,
    addTrackingAnnotations := true, webhookVersion := "v0.1.0" }

/-- A VM serialization that always succeeds (json.Marshal on the happy
path). -/
def marshalOk : VM → Except String Unit := fun _ => .ok ()

/-- A patch serialization that always succeeds. -/
def patchMarshalOk : JsonPatch → Except String Unit := fun _ => .ok ()

/-- A feature whose Validate always fails, for the error-path claims. -/
def failFeature : Feature :=
  { name := FeatureNestedVirt, isEnabled := fun _ => true,
    validate := fun _ => some "boom",
    apply := fun vm => (NewMutationResult, vm, none) }

/-- A feature that is enabled but applies nothing, for the C4 witness. -/
def passFeature : Feature :=
  { name := FeatureNestedVirt, isEnabled := fun _ => true,
    validate := fun _ => none,
    apply := fun vm => (NewMutationResult, vm, none) }

/-- Strip-label mutator whose patch serialization fails. -/
def mutStripFail : Mutator :=
  { config := mkConfig ErrorHandlingStripLabel, features := [failFeature],
    marshal := marshalOk, patchMarshal := fun _ => .error "marshal failed" }

/-- Reject-mode mutator whose patch serialization fails on the success
path. -/
def mutFinFail : Mutator :=
  { config := mkConfig ErrorHandlingReject, features := [passFeature],
    marshal := marshalOk, patchMarshal := fun _ => .error "boom" }

/-- Reject-mode mutator with a failing feature and working marshalling. -/
def mutRejectFail : Mutator :=
  { config := mkConfig ErrorHandlingReject, features := [failFeature],
    marshal := marshalOk, patchMarshal := patchMarshalOk }

/-- Strip-label mutator with working marshalling. -/
def mutStripOk : Mutator :=
  { config := mkConfig ErrorHandlingStripLabel, features := [],
    marshal := marshalOk, patchMarshal := patchMarshalOk }

/-- A mutator with no registered features. -/
def mutNoFeatures : Mutator :=
  { config := mkConfig ErrorHandlingReject, features := [],
    marshal := marshalOk, patchMarshal := patchMarshalOk }

/-- Claim C4 is false as stated: in strip-label mode a patch serialization
failure inside handleError produces an Allowed response (the source falls
back to allowing without mutation), not a denial. Shown on a concrete
strip-mode request whose patch marshalling fails. -/
theorem C4_counterexample :
    createPatch mutStripFail.marshal mutStripFail.patchMarshal vmNV
        (stripDirectiveKey (mergedVM vmNV []) FeatureNestedVirt) =
      .error "failed to marshal patch: marshal failed" ∧
    (Handle mutStripFail (.ok []) (.ok vmNV)).1.allowed = true ∧
    (Handle mutStripFail (.ok []) (.ok vmNV)).1.patch = none := by
  refine ⟨rfl, rfl, rfl⟩

/-- Claim C4 (amended): a patch serialization failure on Handle's success
path is always Denied, in every mode; but in strip-label mode handleError
converts a patch serialization failure into an Allowed response without a
patch. -/
theorem C4_amended_patch_failure :
    (∀ (m : Mutator) (udResult : Except String SMap) (vm mutatedVM : VM)
      (appliedFeatures : List String) (allAnnotations : SMap) (e : String),
      hasEnabledFeatures m.features (mergedVM vm (userdataMap udResult)) = true →
      applyLoop m.features (mergedVM vm (userdataMap udResult)) [] [] =
        .inr (mutatedVM, appliedFeatures, allAnnotations) →
      createPatch m.marshal m.patchMarshal vm
        (trackedVM m mutatedVM appliedFeatures allAnnotations) = .error e →
      (Handle m udResult (.ok vm)).1 = errorResponse e) ∧
    (∀ (m : Mutator) (featureName err : String) (originalVM mutatedVM : VM)
      (e : String),
      m.config.errorHandlingMode = ErrorHandlingStripLabel →
      createPatch m.marshal m.patchMarshal originalVM
        (stripDirectiveKey mutatedVM featureName) = .error e →
      (handleError m featureName err originalVM mutatedVM).1.allowed = true ∧
      (handleError m featureName err originalVM mutatedVM).1.patch = none) := by
  constructor
  · intro m udResult vm mutatedVM appliedFeatures allAnnotations e hen hloop hpatch
    simp only [Handle, hen, Bool.not_true, Bool.false_eq_true, if_false, hloop,
      buildFinalResponse, hpatch]
  · intro m featureName err originalVM mutatedVM e hmode hpatch
    constructor <;>
      simp [handleError, hmode, ErrorHandlingStripLabel, ErrorHandlingReject,
        ErrorHandlingAllowAndLog, hpatch, allowResponse]

/-- Witness for the amended C4: the success-path denial and the
strip-label fallback, both at concrete mutators with failing patch
marshalling. -/
theorem C4_amended_patch_failure_witness :
    (Handle mutFinFail (.ok []) (.ok vmNV)).1 =
      errorResponse "failed to marshal patch: boom" ∧
    (handleError mutStripFail "nested-virt" "boom" vmNV vmNV).1.allowed = true ∧
    (handleError mutStripFail "nested-virt" "boom" vmNV vmNV).1.patch = none := by
  refine ⟨?_, ?_⟩
  · exact C4_amended_patch_failure.1 mutFinFail (.ok []) vmNV
      (mergedVM vmNV (userdataMap (.ok []))) [] []
      "failed to marshal patch: boom" rfl rfl rfl
  · exact C4_amended_patch_failure.2 mutStripFail "nested-virt" "boom" vmNV vmNV
      "failed to marshal patch: marshal failed" rfl rfl

/-- Claim C6: Handle never mutates the decoded original VM: all mutation
targets the deep copy, so the original component returned by the pipeline
equals the decoded VM. -/
theorem C6_original_untouched (m : Mutator) (udResult : Except String SMap)
    (raw : Except String VM) (vm : VM) (h : raw = .ok vm) :
    ((Handle m udResult raw).2).map Prod.fst = some vm := by
  subst h
  by_cases hen : hasEnabledFeatures m.features (mergedVM vm (userdataMap udResult))
  · simp only [Handle, hen, Bool.not_true, Bool.false_eq_true, if_false]
    cases hloop : applyLoop m.features (mergedVM vm (userdataMap udResult)) [] [] with
    | inl x =>
      obtain ⟨featureName, err, mutatedVM⟩ := x
      simp [handleError_keeps_original]
    | inr x => simp
  · simp [Handle, hen]

/-- Witness for C6 at a concrete mutator and VM. -/
theorem C6_original_untouched_witness :
    ((Handle mutNoFeatures (.ok []) (.ok vmNV)).2).map Prod.fst = some vmNV :=
  C6_original_untouched mutNoFeatures (.ok []) (.ok vmNV) vmNV rfl

/-- Claim C7: in reject mode, a Validate or Apply failure of an enabled
rule yields a denied response with no patch whose message embeds the rule
name and the underlying error text. -/
theorem C7_reject_mode (m : Mutator) (udResult : Except String SMap)
    (vm : VM) (featureName err : String) (mutatedVM : VM)
    (hmode : m.config.errorHandlingMode = ErrorHandlingReject)
    (hen : hasEnabledFeatures m.features (mergedVM vm (userdataMap udResult)) = true)
    (hloop : applyLoop m.features (mergedVM vm (userdataMap udResult)) [] [] =
      .inl (featureName, err, mutatedVM)) :
    (Handle m udResult (.ok vm)).1.allowed = false ∧
    (Handle m udResult (.ok vm)).1.patch = none ∧
    (Handle m udResult (.ok vm)).1.message =
      some ("feature " ++ featureName ++ " failed: " ++ err) := by
  have hresp : (Handle m udResult (.ok vm)).1 =
      errorResponse ("feature " ++ featureName ++ " failed: " ++ err) := by
    simp only [Handle, hen, Bool.not_true, Bool.false_eq_true, if_false, hloop]
    simp [handleError, hmode]
  rw [hresp]
  exact ⟨rfl, rfl, rfl⟩

/-- Witness for C7: a reject-mode mutator with a failing rule on a
concrete VM. -/
theorem C7_reject_mode_witness :
    (Handle mutRejectFail (.ok []) (.ok vmNV)).1.allowed = false ∧
    (Handle mutRejectFail (.ok []) (.ok vmNV)).1.patch = none ∧
    (Handle mutRejectFail (.ok []) (.ok vmNV)).1.message =
      some ("feature " ++ "nested-virt" ++ " failed: " ++ "boom") :=
  C7_reject_mode mutRejectFail (.ok []) vmNV "nested-virt" "boom"
    (mergedVM vmNV (userdataMap (.ok []))) rfl rfl rfl

/-- The mutator with every feature's Validate and Apply replaced, keeping
names and enablement checks. -/
def replaceValidateApply (m : Mutator) (validateB : VM → Option String)
    (applyB : VM → MutationResult × VM × Option String) : Mutator :=
  { m with
    features := m.features.map (fun f =>
      { f with validate := validateB, apply := applyB }) }

/-- Claim C8: when no feature is enabled on the merged view, Handle
answers Allowed with no patch, and the answer does not depend on any
rule's Validate or Apply behaviour. -/
theorem C8_fast_path (m : Mutator) (udResult : Except String SMap) (vm : VM)
    (hen : hasEnabledFeatures m.features (mergedVM vm (userdataMap udResult)) = false) :
    (Handle m udResult (.ok vm)).1 = allowResponse "No features requested" ∧
    (Handle m udResult (.ok vm)).1.patch = none ∧
    (∀ (validateB : VM → Option String)
      (applyB : VM → MutationResult × VM × Option String),
      (Handle (replaceValidateApply m validateB applyB) udResult (.ok vm)).1 =
        allowResponse "No features requested") := by
  refine ⟨?_, ?_, ?_⟩
  · simp [Handle, hen]
  · simp [Handle, hen, allowResponse]
  · intro validateB applyB
    have hen' : hasEnabledFeatures (replaceValidateApply m validateB applyB).features
        (mergedVM vm (userdataMap udResult)) = false := by
      show hasEnabledFeatures (m.features.map (fun f =>
        { f with validate := validateB, apply := applyB }))
        (mergedVM vm (userdataMap udResult)) = false
      rw [hasEnabledFeatures_map_validate_apply]
      exact hen
    simp [Handle, hen']

/-- Witness for C8 at a concrete mutator with no enabled features. -/
theorem C8_fast_path_witness :
    (Handle mutNoFeatures (.ok []) (.ok vmNV)).1 =
      allowResponse "No features requested" ∧
    (Handle mutNoFeatures (.ok []) (.ok vmNV)).1.patch = none :=
  ⟨(C8_fast_path mutNoFeatures (.ok []) vmNV rfl).1,
   (C8_fast_path mutNoFeatures (.ok []) vmNV rfl).2.1⟩

/-- A CPU block already holding the nested-virt feature, for the C3
witness. -/
def cpuA : CPU := { features := [{ name := "svm", policy := "require" }] }

/-- The template after an earlier successful rule, for the C3 witness. -/
def tplA : Template :=
  { spec := { domain := { cpu := some cpuA, devices := { hostDevices := [] } } } }

/-- The decoded original VM of the C3 witness: both directives present,
no body mutation yet. -/
def originalC3 : VM :=
  { annotations := [(AnnotationNestedVirt, "enabled"),
      (AnnotationPciPassthrough, "devspec")],
    labels := [], spec := { template := none } }

/-- The working copy of the C3 witness after rule A (nested-virt)
succeeded: body mutated, both directive keys still present. -/
def mutatedC3 : VM :=
  { annotations := [(AnnotationNestedVirt, "enabled"),
      (AnnotationPciPassthrough, "devspec")],
    labels := [], spec := { template := some tplA } }

/-- The patch the strip branch emits in the C3 witness. -/
def pC3 : JsonPatch :=
  { specValue := mutatedC3.spec,
    annotationsValue := mutatedC3.annotations.serase AnnotationPciPassthrough }

/-- Witness for C3: rule B (pci-passthrough) fails under strip mode after
rule A mutated the body; the patch keeps the body mutation, drops exactly
B's key and keeps A's key. -/
theorem C3_strip_mode_preservation_witness :
    (handleError mutStripOk FeaturePciPassthrough "bad device"
      originalC3 mutatedC3).1.allowed = true ∧
    (handleError mutStripOk FeaturePciPassthrough "bad device"
      originalC3 mutatedC3).1.patch = some pC3 ∧
    pC3.specValue = mutatedC3.spec ∧
    pC3.annotationsValue.sfind AnnotationPciPassthrough = none ∧
    pC3.annotationsValue.sfind AnnotationNestedVirt =
      mutatedC3.annotations.sfind AnnotationNestedVirt := by
  have h := C3_strip_mode_preservation mutStripOk FeaturePciPassthrough
    "bad device" originalC3 mutatedC3 AnnotationPciPassthrough pC3 rfl rfl
    (by decide) rfl
  exact ⟨h.1, h.2.1, h.2.2.1, h.2.2.2.1,
    h.2.2.2.2 AnnotationNestedVirt (by decide)⟩

end VMFM
